import Mathlib

/-!
Shallow embedding of the Freya server core: the concurrent connection
registry in share/network/network.go, together with the game server's
Initialized packet handler (cmd/gameserver/packet/initialized.go).

Go machine integers are modelled as Nat (uint16, uint32) or Int (int32);
uint16 wrap-around is written explicitly as % 65536 where the source relies
on it (the user-index counter).  The registry map clients is modelled as a
function from Nat (the uint16 key space) to Option Session; sequential
semantics is used throughout, so lock acquisition/release only matters for
the lock-order trace model near the end of the definitions.
-/

namespace Freya

/-- Size of the uint16 identity space used for session user indexes. -/
def USER_IDX_SPACE : Nat := 65536

/-- Modelled from the spec: the sentinel invalid user index returned by
IsOnline when no matching session is found.  The constant is declared in
session code outside the files at hand; the spec describes it only as a
distinguished invalid-index value inside the uint16 return type, and the
conventional maximal uint16 value 0xFFFF = 65535 is used here. -/
def INVALID_USER_INDEX : Nat := 65535

/-- Modelled from the spec: the opcode tag of the game server's INITIALIZED
reply packet.  The opcode table lives outside the files at hand; the exact
numeric value never matters below, only that the reply is a packet. -/
def INITIALIZED : Nat := 312

/-- A packet writer, reduced to the opcode it was created with: none of the
registry claims inspects packet payloads, only which sessions a given packet
reaches. -/
structure Writer where
  opcode : Nat
  deriving DecidableEq, Repr

/-- A character record (share/models/character); only the id drives control
flow in the Initialized handler, the remaining fields feed the reply payload
which the Writer model does not carry. -/
structure Character where
  Id : Int
  deriving DecidableEq, Repr

/-- Role-specific session payload stored in Session.DataEx (an interface
value in Go): either the game server's context (holding the selected
character behind its own mutex) or a value of some other shape, on which the
type assertion in the Initialized handler fails. -/
inductive DataExVal where
  | gameCtx (char : Option Character)
  | otherCtx
  deriving DecidableEq, Repr

/-- Session.Data (share/models): authentication flags, account id and the
cached character list used by the Initialized handler. -/
structure SessionData where
  Verified : Bool := false
  LoggedIn : Bool := false
  AccountId : Int := 0
  CharacterList : List Character := []
  deriving DecidableEq, Repr

/-- A client session: user index, handshake key, remote address, connected
flag, session data, role-specific payload, and the packets written to its
socket so far (the outbox models the socket write stream). -/
structure Session where
  UserIdx : Nat := 0
  AuthKey : Nat := 0
  ip : String := ""
  Connected : Bool := true
  Data : SessionData := {}
  DataEx : Option DataExVal := none
  outbox : List Writer := []
  deriving DecidableEq, Repr

/-- Modelled from the spec: Session.Send lives in session code outside the
files at hand; per the spec a send reaches only a currently-connected
session (broadcast sends to every currently-connected session; a closed
session is skipped), so delivery appends to the outbox exactly when
Connected is set. -/
def Session.sendPacket (s : Session) (w : Writer) : Session :=
  if s.Connected then { s with outbox := s.outbox ++ [w] } else s

/-- The connection registry state of share/network/network.go: the
identity-to-Session map and the running user-index counter (a uint16 in the
source, kept below 65536 by explicit wrap-around). -/
structure Network where
  clients : Nat → Option Session
  userIdx : Nat

/-- Point update of the identity map: store session s under key i. -/
def mapInsert (clients : Nat → Option Session) (i : Nat) (s : Session) :
    Nat → Option Session :=
  fun j => if j = i then some s else clients j

/-- Point deletion of the identity map: Go map delete of key i (a no-op
when the key is absent). -/
def mapDelete (clients : Nat → Option Session) (i : Nat) :
    Nat → Option Session :=
  fun j => if j = i then none else clients j

/-- The registry state set up at the top of Network.Init: empty map,
counter zero. -/
def netInit : Network :=
  { clients := fun _ => none, userIdx := 0 }

/-- The free-slot search of the accept loop in Network.Init: starting from
the running counter, step the uint16 index (wrapping mod 65536) while the
slot is occupied.  The Go loop is unbounded; fuel makes the model total, and
a result of none for every fuel corresponds to the Go loop never exiting. -/
def findFree (clients : Nat → Option Session) (idx : Nat) : Nat → Option Nat
  | 0 => none
  | fuel + 1 =>
    if clients (idx % USER_IDX_SPACE) = none then some (idx % USER_IDX_SPACE)
    else findFree clients (idx + 1) fuel

/-- One successful iteration of the accept loop in Network.Init: search for
a free user index from the running counter, store the new session under it,
stamp the session with the index, and advance the counter past it.  A seed
session carries the fields of the freshly accepted connection; its UserIdx
field is overwritten on insertion exactly as in the source.  When the search
finds nothing (the map is full) the Go loop does not exit; the model returns
none and leaves the state unchanged. -/
def Network.acceptConn (net : Network) (seed : Session) : Network × Option Nat :=
  match findFree net.clients net.userIdx USER_IDX_SPACE with
  | some j =>
    let s : Session := { seed with UserIdx := j }
    ({ clients := mapInsert net.clients j s,
       userIdx := (j + 1) % USER_IDX_SPACE }, some j)
  | none => (net, none)

/-- Network.VerifyUser: checks the session stored under index i for the
expected handshake key and remote address; on success marks it verified and
logged in and records the account id.  Session.GetIp is outside the files at
hand and is modelled, per the spec, as the stored remote-endpoint address. -/
def Network.VerifyUser (net : Network) (i : Nat) (k : Nat) (ip : String)
    (dbIdx : Int) : Network × Bool :=
  match net.clients i with
  | some s =>
    if s.AuthKey == k && s.ip == ip then
      let s' : Session := { s with Data :=
        { s.Data with Verified := true, LoggedIn := true, AccountId := dbIdx } }
      ({ net with clients := mapInsert net.clients i s' }, true)
    else (net, false)
  | none => (net, false)

/-- Network.SendToUser: looks up index i; if a session is there and
connected, sends the packet to it and reports true, otherwise reports false
and leaves everything untouched. -/
def Network.SendToUser (net : Network) (i : Nat) (w : Writer) : Network × Bool :=
  match net.clients i with
  | some s =>
    if s.Connected then
      ({ net with clients := mapInsert net.clients i (s.sendPacket w) }, true)
    else (net, false)
  | none => (net, false)

/-- Network.SendToAll: sends the packet to every session in the map (the Go
loop ranges over all map values; delivery itself is gated on Connected
inside the send). -/
def Network.SendToAll (net : Network) (w : Writer) : Network :=
  { net with clients := fun i => (net.clients i).map (fun s => s.sendPacket w) }

/-- Network.SendToAllExcept: like SendToAll but skips the given session.
The Go code compares session pointers; with sessions as values the skip
test is value equality, which coincides with pointer identity whenever
registry entries are pairwise distinct (in particular under the registry
invariant that each entry's UserIdx equals its key). -/
def Network.SendToAllExcept (net : Network) (w : Writer) (ex : Session) : Network :=
  { net with clients := fun i =>
      (net.clients i).map (fun s => if s = ex then s else s.sendPacket w) }

/-- The per-session test of Network.IsOnline, in source order: account id
matches and the session is verified and logged in. -/
def onlineMatch (s : Session) (account : Int) : Bool :=
  s.Data.AccountId == account && s.Data.Verified && s.Data.LoggedIn

/-- The scan inside Network.IsOnline.  Go map iteration order is
unspecified; the model fixes ascending key order over the uint16 key space,
stopping at the first session passing onlineMatch and returning its stored
UserIdx. -/
def scanOnline (clients : Nat → Option Session) (account : Int) (idx : Nat) :
    Nat → Option Nat
  | 0 => none
  | fuel + 1 =>
    match clients idx with
    | some s =>
      if onlineMatch s account then some s.UserIdx
      else scanOnline clients account (idx + 1) fuel
    | none => scanOnline clients account (idx + 1) fuel

/-- Network.IsOnline: scan all sessions for a verified, logged-in session
with the given account id; return its user index, or INVALID_USER_INDEX
when none is found. -/
def Network.IsOnline (net : Network) (account : Int) : Nat :=
  (scanOnline net.clients account 0 USER_IDX_SPACE).getD INVALID_USER_INDEX

/-- The scan inside Network.CloseUser and Network.GetSession: walk the map
values (ascending key order in the model) looking for a session whose
stored UserIdx equals the target. -/
def scanUserIdx (clients : Nat → Option Session) (target : Nat) (idx : Nat) :
    Nat → Option Session
  | 0 => none
  | fuel + 1 =>
    match clients idx with
    | some s =>
      if s.UserIdx == target then some s
      else scanUserIdx clients target (idx + 1) fuel
    | none => scanUserIdx clients target (idx + 1) fuel

/-- Network.onClientDisconnect: the disconnect event carries an untyped
value; when it is a session, its map entry (keyed by the session's stored
UserIdx) is deleted, otherwise the handler logs and returns.  Deleting an
absent key is Go map delete, a no-op. -/
def Network.onClientDisconnect (net : Network) (ev : Option Session) : Network :=
  match ev with
  | some s => { net with clients := mapDelete net.clients s.UserIdx }
  | none => net

/-- Modelled from the spec: Session.Close is in session code outside the
files at hand; per the spec a close clears the connected flag, closes the
socket once, and triggers the disconnect event, whose registry handler
(Network.onClientDisconnect above) then deletes the entry.  The net effect
on the registry is deletion of the entry keyed by the session's UserIdx. -/
def Network.sessionClose (net : Network) (s : Session) : Network :=
  net.onClientDisconnect (some { s with Connected := false })

/-- Network.CloseUser: scan for a session whose UserIdx equals i; if found,
close it (which through the disconnect event removes it from the registry)
and report true, otherwise report false. -/
def Network.CloseUser (net : Network) (i : Nat) : Network × Bool :=
  match scanUserIdx net.clients i 0 USER_IDX_SPACE with
  | some s => (net.sessionClose s, true)
  | none => (net, false)

/-- An operation on the registry as seen by the identity-uniqueness claim:
an accept of a fresh connection, or delivery of a disconnect event for a
session. -/
inductive NetOp where
  | accept (seed : Session)
  | disconnect (s : Session)

/-- One step of the registry under a connect/disconnect operation. -/
def netStep (net : Network) : NetOp → Network
  | .accept seed => (net.acceptConn seed).1
  | .disconnect s => net.onClientDisconnect (some s)

/-- The registry state after a sequence of connect/disconnect operations,
starting from the freshly initialized registry. -/
def runOps (ops : List NetOp) : Network :=
  ops.foldl netStep netInit

/-- The registry invariant: every stored session is keyed by its own
UserIdx (and hence lives inside the uint16 key space). -/
def RegInv (net : Network) : Prop :=
  ∀ i s, net.clients i = some s → s.UserIdx = i ∧ i < USER_IDX_SPACE

/-- The game server's Initialized packet handler
(cmd/gameserver/packet/initialized.go), as a function from the session and
the decoded character id to the updated session and a closed-the-session
flag (the handler never closes, so the flag records that fact).  The
fetched argument stands for the character list returned by the
LoadCharacters RPC call, consulted only when the session's cached list is
empty; the LoadCharacterData RPC result feeds only reply payload bytes,
which the opcode-only Writer model does not carry.  The Go right shift
charId >> 3 on an int32 is arithmetic, i.e. floor division by 8. -/
def Initialized (session : Session) (charId : Int) (fetched : List Character) :
    Session × Bool :=
  if !session.Data.Verified || !session.Data.LoggedIn || session.DataEx.isNone then
    (session, false)
  else
    match session.DataEx with
    | none => (session, false)
    | some .otherCtx => (session, false)
    | some (.gameCtx _) =>
      if Int.fdiv charId 8 ≠ session.Data.AccountId then (session, false)
      else
        let session1 :=
          if session.Data.CharacterList.isEmpty then
            { session with Data := { session.Data with CharacterList := fetched } }
          else session
        let c : Character :=
          (session1.Data.CharacterList.find? (fun d => d.Id == charId)).getD { Id := 0 }
        if c.Id ≠ charId then (session1, false)
        else
          let session2 := session1.sendPacket { opcode := INITIALIZED }
          ({ session2 with DataEx := some (.gameCtx (some c)) }, false)

/-- Lock and I/O events, for checking the lock discipline of the send
paths. -/
inductive LockEv where
  | rlock
  | runlock
  | wlock
  | wunlock
  | sockWrite (idx : Nat)
  deriving DecidableEq, Repr

/-- Event trace of Network.SendToUser, following the source line by line:
RLock, map lookup, and when a connected session is found Session.Send runs
before RUnlock.  The socket write inside Session.Send is spec-modelled: the
spec lists sending a packet as a blocking I/O call. -/
def sendToUserTrace (net : Network) (i : Nat) : List LockEv :=
  match net.clients i with
  | some s =>
    if s.Connected then [.rlock, .sockWrite i, .runlock] else [.rlock, .runlock]
  | none => [.rlock, .runlock]

/-- The socket writes performed by the loop body of Network.SendToAll, in
ascending key order over the map: one write per connected session (delivery
inside Session.Send is gated on Connected). -/
def broadcastWrites (clients : Nat → Option Session) (idx : Nat) : Nat → List LockEv
  | 0 => []
  | fuel + 1 =>
    match clients idx with
    | some s =>
      if s.Connected then .sockWrite idx :: broadcastWrites clients (idx + 1) fuel
      else broadcastWrites clients (idx + 1) fuel
    | none => broadcastWrites clients (idx + 1) fuel

/-- Event trace of Network.SendToAll: RLock, the per-session writes of the
loop, RUnlock. -/
def sendToAllTrace (net : Network) : List LockEv :=
  LockEv.rlock :: (broadcastWrites net.clients 0 USER_IDX_SPACE ++ [LockEv.runlock])

/-- Whether a socket write occurs somewhere in the trace while the read
lock is held (read-lock depth positive). -/
def writeWhileRLocked (depth : Nat) : List LockEv → Bool
  | [] => false
  | LockEv.rlock :: rest => writeWhileRLocked (depth + 1) rest
  | LockEv.runlock :: rest => writeWhileRLocked (depth - 1) rest
  | LockEv.sockWrite _ :: rest => decide (0 < depth) || writeWhileRLocked depth rest
  | LockEv.wlock :: rest => writeWhileRLocked depth rest
  | LockEv.wunlock :: rest => writeWhileRLocked depth rest

/-! Concrete states used by witnesses and counterexamples. -/

/-- A default session seed, as created by the accept loop. -/
def seedA : Session := {}

/-- A second seed with a distinguishing handshake key. -/
def seedB : Session := { AuthKey := 9 }

/-- A session occupying identity 1. -/
def busy1 : Session := { UserIdx := 1 }

/-- Registry with identity 1 occupied, identity 0 free, counter at 1. -/
def net2c : Network := { clients := fun i => if i = 1 then some busy1 else none, userIdx := 1 }

/-- A fully occupied identity map (every key holds a session). -/
def fullClients : Nat → Option Session := fun _ => some busy1

/-- Two accepts from the fresh registry. -/
def opsW : List NetOp := [NetOp.accept seedA, NetOp.accept seedB]

/-! Properties of the free-slot search. -/

theorem findFree_some {clients : Nat → Option Session} {idx fuel j : Nat}
    (h : findFree clients idx fuel = some j) :
    ∃ k, k < fuel ∧ j = (idx + k) % USER_IDX_SPACE ∧
      (∀ m, m < k → clients ((idx + m) % USER_IDX_SPACE) ≠ none) ∧
      clients j = none := by
  induction fuel generalizing idx with
  | zero => simp [findFree] at h
  | succ fuel ih =>
    rw [findFree] at h
    by_cases hc : clients (idx % USER_IDX_SPACE) = none
    · rw [if_pos hc] at h
      refine ⟨0, Nat.succ_pos _, ?_, ?_, ?_⟩
      · rw [Nat.add_zero]; exact (Option.some_inj.mp h).symm
      · intro m hm; omega
      · rw [← Option.some_inj.mp h]; exact hc
    · rw [if_neg hc] at h
      obtain ⟨k, hk, hj, hocc, hfree⟩ := ih h
      refine ⟨k + 1, by omega, ?_, ?_, hfree⟩
      · rw [hj, show idx + 1 + k = idx + (k + 1) from by omega]
      · intro m hm
        cases m with
        | zero => simpa using hc
        | succ m' =>
          have := hocc m' (by omega)
          rw [show idx + 1 + m' = idx + (m' + 1) from by omega] at this
          exact this

theorem acceptConn_fresh {net : Network} {seed : Session} {net' : Network} {j : Nat}
    (h : net.acceptConn seed = (net', some j)) :
    net.clients j = none := by
  unfold Network.acceptConn at h
  cases hff : findFree net.clients net.userIdx USER_IDX_SPACE with
  | none => rw [hff] at h; simp at h
  | some j' =>
    rw [hff] at h
    obtain ⟨-, -, -, hfree⟩ := (findFree_some hff).choose_spec
    have hj : j' = j := by
      have := congrArg Prod.snd h
      simpa using this
    rw [← hj]
    exact hfree

/-! The registry invariant is established by Init and preserved by the
accept loop and the disconnect handler. -/

theorem regInv_netInit : RegInv netInit := by
  intro i s h
  simp [netInit] at h

theorem regInv_acceptConn {net : Network} (hinv : RegInv net) (seed : Session) :
    RegInv (net.acceptConn seed).1 := by
  unfold Network.acceptConn
  cases hff : findFree net.clients net.userIdx USER_IDX_SPACE with
  | none => exact hinv
  | some j =>
    obtain ⟨k, hk, hj, -, -⟩ := findFree_some hff
    intro i s h
    simp only [mapInsert] at h
    by_cases hij : i = j
    · rw [if_pos hij] at h
      have hs := Option.some_inj.mp h
      constructor
      · rw [← hs, hij]
      · rw [hij, hj]
        exact Nat.mod_lt _ (by decide)
    · rw [if_neg hij] at h
      exact hinv i s h

theorem regInv_netStep {net : Network} (hinv : RegInv net) (op : NetOp) :
    RegInv (netStep net op) := by
  cases op with
  | accept seed => exact regInv_acceptConn hinv seed
  | disconnect s =>
    intro i t h
    simp only [netStep, Network.onClientDisconnect, mapDelete] at h
    by_cases hij : i = s.UserIdx
    · rw [if_pos hij] at h; exact absurd h (by simp)
    · rw [if_neg hij] at h; exact hinv i t h

theorem regInv_runOps (ops : List NetOp) : RegInv (runOps ops) := by
  suffices h : ∀ (l : List NetOp) (net : Network), RegInv net → RegInv (l.foldl netStep net)
    from h ops netInit regInv_netInit
  intro l
  induction l with
  | nil => intro net h; exact h
  | cons op rest ih => intro net h; exact ih _ (regInv_netStep h op)

/-- Claim C1: over every sequence of accept and disconnect operations on
the registry, no two sessions simultaneously present hold the same user
index (the identity-to-Session map keeps at most one live session per
identity), and an accept only ever assigns an identity whose registry slot
is currently empty, i.e. an identity is reassigned only after its previous
holder was removed. -/
theorem identity_uniqueness (ops : List NetOp) :
    (∀ i j s t, (runOps ops).clients i = some s → (runOps ops).clients j = some t →
      s.UserIdx = t.UserIdx → i = j) ∧
    (∀ seed net' j, (runOps ops).acceptConn seed = (net', some j) →
      (runOps ops).clients j = none) := by
  have hinv := regInv_runOps ops
  constructor
  · intro i j s t hi hj he
    have h1 := (hinv i s hi).1
    have h2 := (hinv j t hj).1
    rw [← h1, ← h2, he]
  · intro seed net' j hacc
    exact acceptConn_fresh hacc

/-- Witness for the identity-uniqueness claim on a concrete run: after two
accepts, the sessions stored at slots 0 and 1 satisfy uniqueness, and the
next accept targets the empty slot 2. -/
theorem identity_uniqueness_witness :
    (0 : Nat) = 0 ∧ (runOps opsW).clients 2 = none :=
  ⟨(identity_uniqueness opsW).1 0 0 { seedA with UserIdx := 0 } { seedA with UserIdx := 0 }
      rfl rfl rfl,
    (identity_uniqueness opsW).2 seedB ((runOps opsW).acceptConn seedB).1 2 rfl⟩

/-- Claim C2 counterexample: with identity 0 free, identity 1 occupied and
the running counter at 1, an accept assigns identity 2, not the lowest free
identity 0 (which is below the running counter). -/
theorem lowest_identity_cex :
    (net2c.acceptConn seedA).2 = some 2 ∧ net2c.clients 0 = none :=
  ⟨rfl, rfl⟩

/-- Claim C2 as amended: a successful accept assigns the first free
identity found by the wrap-around scan that starts at the running counter
and skips occupied slots — every slot cyclically between the counter and
the assigned identity is occupied, the assigned slot was empty, the new
session is stored there stamped with that identity, and the counter moves
one past it (mod 65536); all other slots are untouched.  The assigned
identity need not be the lowest free identity overall. -/
theorem accept_assigns_first_free_from_counter (net : Network) (seed : Session)
    (net' : Network) (j : Nat) (h : net.acceptConn seed = (net', some j)) :
    ∃ k, k < USER_IDX_SPACE ∧ j = (net.userIdx + k) % USER_IDX_SPACE ∧
      (∀ m, m < k → net.clients ((net.userIdx + m) % USER_IDX_SPACE) ≠ none) ∧
      net.clients j = none ∧
      net'.clients j = some { seed with UserIdx := j } ∧
      net'.userIdx = (j + 1) % USER_IDX_SPACE ∧
      (∀ i, i ≠ j → net'.clients i = net.clients i) := by
  unfold Network.acceptConn at h
  cases hff : findFree net.clients net.userIdx USER_IDX_SPACE with
  | none => rw [hff] at h; simp at h
  | some j' =>
    rw [hff] at h
    have hj : j' = j := by simpa using congrArg Prod.snd h
    subst hj
    have hfst : Network.mk (mapInsert net.clients j' { seed with UserIdx := j' })
        ((j' + 1) % USER_IDX_SPACE) = net' := congrArg Prod.fst h
    obtain ⟨k, hk, hjk, hocc, hfree⟩ := findFree_some hff
    refine ⟨k, hk, hjk, hocc, hfree, ?_, ?_, ?_⟩
    · rw [← hfst]; simp [mapInsert]
    · rw [← hfst]
    · intro i hi
      rw [← hfst]
      simp [mapInsert, hi]

/-- Witness for the amended allocation claim at the concrete registry of
the counterexample: accept from counter 1 with slot 1 occupied yields the
scan characterization for the assigned identity 2. -/
theorem accept_assigns_first_free_witness :
    ∃ k, k < USER_IDX_SPACE ∧ 2 = (net2c.userIdx + k) % USER_IDX_SPACE ∧
      (∀ m, m < k → net2c.clients ((net2c.userIdx + m) % USER_IDX_SPACE) ≠ none) ∧
      net2c.clients 2 = none ∧
      (net2c.acceptConn seedA).1.clients 2 = some { seedA with UserIdx := 2 } ∧
      (net2c.acceptConn seedA).1.userIdx = (2 + 1) % USER_IDX_SPACE ∧
      (∀ i, i ≠ 2 → (net2c.acceptConn seedA).1.clients i = net2c.clients i) :=
  accept_assigns_first_free_from_counter net2c seedA (net2c.acceptConn seedA).1 2 rfl

/-- Claim C3, evaluated against the code: when every identity in the
uint16 space is occupied, the free-slot search returns nothing at every
fuel bound — the unbounded loop in Network.Init therefore never exits, so
the log-and-drop branch behind it is unreachable and the accept flow hangs
holding the write lock instead of rejecting the connection. -/
theorem full_registry_search_never_terminates
    (clients : Nat → Option Session) (idx : Nat)
    (hfull : ∀ i, i < USER_IDX_SPACE → clients i ≠ none) (fuel : Nat) :
    findFree clients idx fuel = none := by
  induction fuel generalizing idx with
  | zero => rfl
  | succ fuel ih =>
    rw [findFree, if_neg (hfull _ (Nat.mod_lt _ (by decide)))]
    exact ih _

/-- Witness: on a concretely full identity map the search fails for (in
particular) a full cycle of fuel. -/
theorem full_registry_search_never_terminates_witness :
    findFree fullClients 0 USER_IDX_SPACE = none :=
  full_registry_search_never_terminates fullClients 0
    (fun i _ => by simp [fullClients]) USER_IDX_SPACE

/-! Properties of the IsOnline scan. -/

theorem scanOnline_none {clients : Nat → Option Session} {a : Int}
    (h : ∀ j s, clients j = some s → onlineMatch s a = false) :
    ∀ fuel idx, scanOnline clients a idx fuel = none := by
  intro fuel
  induction fuel with
  | zero => intro idx; rfl
  | succ fuel ih =>
    intro idx
    rw [scanOnline]
    cases hc : clients idx with
    | some s =>
      show (if onlineMatch s a = true then some s.UserIdx
        else scanOnline clients a (idx + 1) fuel) = none
      rw [h idx s hc]
      simp only [Bool.false_eq_true, if_false]
      exact ih _
    | none => exact ih _

theorem scanOnline_some {clients : Nat → Option Session} {a : Int} {idx fuel r : Nat}
    (h : scanOnline clients a idx fuel = some r) :
    ∃ j s, clients j = some s ∧ onlineMatch s a = true ∧ r = s.UserIdx := by
  induction fuel generalizing idx with
  | zero => simp [scanOnline] at h
  | succ fuel ih =>
    rw [scanOnline] at h
    cases hc : clients idx with
    | some s =>
      rw [hc] at h
      have h' : (if onlineMatch s a = true then some s.UserIdx
          else scanOnline clients a (idx + 1) fuel) = some r := h
      by_cases hm : onlineMatch s a = true
      · rw [if_pos hm] at h'
        exact ⟨idx, s, hc, hm, (Option.some_inj.mp h').symm⟩
      · rw [if_neg hm] at h'
        exact ih h'
    | none =>
      rw [hc] at h
      exact ih h

theorem scanOnline_finds {clients : Nat → Option Session} {a : Int} :
    ∀ fuel idx,
      (∃ k, k < fuel ∧ ∃ s, clients (idx + k) = some s ∧ onlineMatch s a = true) →
      (scanOnline clients a idx fuel).isSome = true := by
  intro fuel
  induction fuel with
  | zero =>
    intro idx h
    obtain ⟨k, hk, -⟩ := h
    omega
  | succ fuel ih =>
    intro idx h
    obtain ⟨k, hk, s, hs, hm⟩ := h
    rw [scanOnline]
    cases hc : clients idx with
    | some t =>
      show (if onlineMatch t a = true then some t.UserIdx
        else scanOnline clients a (idx + 1) fuel).isSome = true
      by_cases hmt : onlineMatch t a = true
      · rw [if_pos hmt]
        rfl
      · rw [if_neg hmt]
        apply ih
        cases k with
        | zero =>
          rw [Nat.add_zero] at hs
          rw [hc] at hs
          rw [← Option.some_inj.mp hs] at hm
          exact absurd hm hmt
        | succ k' =>
          refine ⟨k', by omega, s, ?_, hm⟩
          rw [show idx + 1 + k' = idx + (k' + 1) from by omega]
          exact hs
    | none =>
      show (scanOnline clients a (idx + 1) fuel).isSome = true
      apply ih
      cases k with
      | zero =>
        rw [Nat.add_zero] at hs
        rw [hc] at hs
        exact absurd hs (by simp)
      | succ k' =>
        refine ⟨k', by omega, s, ?_, hm⟩
        rw [show idx + 1 + k' = idx + (k' + 1) from by omega]
        exact hs

/-- Claim C4 as amended: IsOnline returns INVALID_USER_INDEX when no
session passes the verified-and-logged-in-with-that-account test, and when
some session at a uint16 key passes the test it returns the stored user
index of a passing session.  The original claim's stipulation that the
sentinel is distinct from every valid identity is dropped: the sentinel
value 0xFFFF is itself an assignable identity (the accept search ranges
over the whole uint16 space), so the returned value distinguishes presence
from absence only when no passing session holds identity 65535. -/
theorem isOnline_spec (net : Network) (account : Int) :
    ((∀ j s, net.clients j = some s → onlineMatch s account = false) →
      net.IsOnline account = INVALID_USER_INDEX) ∧
    ((∃ j, j < USER_IDX_SPACE ∧ ∃ s, net.clients j = some s ∧ onlineMatch s account = true) →
      ∃ j s, net.clients j = some s ∧ onlineMatch s account = true ∧
        net.IsOnline account = s.UserIdx) := by
  constructor
  · intro hno
    unfold Network.IsOnline
    rw [scanOnline_none hno]
    rfl
  · intro h
    obtain ⟨j, hj, s, hs, hm⟩ := h
    have hsome : (scanOnline net.clients account 0 USER_IDX_SPACE).isSome = true :=
      scanOnline_finds USER_IDX_SPACE 0 ⟨j, hj, s, by simpa using hs, hm⟩
    obtain ⟨r, hr⟩ := Option.isSome_iff_exists.mp hsome
    obtain ⟨j', s', hs', hm', hr'⟩ := scanOnline_some hr
    refine ⟨j', s', hs', hm', ?_⟩
    unfold Network.IsOnline
    rw [hr]
    exact hr'

/-- A verified, logged-in session of account 7 holding the maximal uint16
identity 65535. -/
def vSess : Session :=
  { UserIdx := 65535, Data := { Verified := true, LoggedIn := true, AccountId := 7 } }

/-- Registry whose only session is vSess, stored under its identity. -/
def net4c : Network :=
  { clients := fun i => if i = 65535 then some vSess else none, userIdx := 0 }

/-- Claim C4 counterexample: a verified, logged-in session of account 7 is
present (at identity 65535), yet IsOnline 7 returns INVALID_USER_INDEX —
the sentinel is not distinct from every valid identity, and the claimed
equivalence fails at this registry state. -/
theorem isOnline_sentinel_collision :
    net4c.clients 65535 = some vSess ∧ onlineMatch vSess 7 = true ∧
    net4c.IsOnline 7 = INVALID_USER_INDEX := by
  refine ⟨rfl, rfl, ?_⟩
  have hsome : (scanOnline net4c.clients 7 0 USER_IDX_SPACE).isSome = true :=
    scanOnline_finds USER_IDX_SPACE 0 ⟨65535, by decide, vSess, by simp [net4c], rfl⟩
  obtain ⟨r, hr⟩ := Option.isSome_iff_exists.mp hsome
  obtain ⟨j', s', hs', hm', hr'⟩ := scanOnline_some hr
  have hs'v : s' = vSess := by
    by_cases hj : j' = 65535
    · rw [hj] at hs'
      simpa [net4c] using hs'.symm
    · simp [net4c, hj] at hs'
  unfold Network.IsOnline
  rw [hr]
  rw [hr', hs'v]
  rfl

/-- A verified, logged-in, connected session of account 5 at identity 2. -/
def onSess : Session :=
  { UserIdx := 2, Data := { Verified := true, LoggedIn := true, AccountId := 5 } }

/-- Registry whose only session is onSess, stored under its identity. -/
def net6w : Network :=
  { clients := fun i => if i = 2 then some onSess else none, userIdx := 3 }

/-- Witness for the amended IsOnline claim at a small registry: account 99
is absent so the sentinel comes back, while account 5 is online at identity
2 and IsOnline reports a passing session's index. -/
theorem isOnline_spec_witness :
    net6w.IsOnline 99 = INVALID_USER_INDEX ∧
    (∃ j s, net6w.clients j = some s ∧ onlineMatch s 5 = true ∧
      net6w.IsOnline 5 = s.UserIdx) := by
  constructor
  · apply (isOnline_spec net6w 99).1
    intro j s h
    by_cases hj : j = 2
    · have hs : s = onSess := by
        rw [hj] at h
        simpa [net6w] using h.symm
      rw [hs]
      rfl
    · simp [net6w, hj] at h
  · exact (isOnline_spec net6w 5).2 ⟨2, by decide, onSess, rfl, rfl⟩

/-! Broadcast and single-target delivery. -/

/-- Claim C5 as amended: under the sequential semantics (no insertion or
removal during the broadcast), SendToAll appends the packet exactly once to
the outbox of every connected session present at the start, leaves
disconnected present sessions untouched, and reaches no absent slot;
SendToAllExcept does the same except that the excluded session receives
nothing (under the registry invariant, value equality of the skip test
coincides with the source's pointer equality).  Delivery is gated on the
connected flag, so a present but disconnected session does not receive the
packet — the original claim's unconditional "every session present receives
it exactly once" does not hold for such sessions. -/
theorem broadcast_delivery (net : Network) (w : Writer) (ex : Session) :
    (∀ i s, net.clients i = some s → s.Connected = true →
      (net.SendToAll w).clients i = some { s with outbox := s.outbox ++ [w] }) ∧
    (∀ i s, net.clients i = some s → s.Connected = false →
      (net.SendToAll w).clients i = some s) ∧
    (∀ i, net.clients i = none → (net.SendToAll w).clients i = none) ∧
    (net.clients ex.UserIdx = some ex →
      (net.SendToAllExcept w ex).clients ex.UserIdx = some ex) ∧
    (RegInv net → ∀ i s, i ≠ ex.UserIdx → net.clients i = some s → s.Connected = true →
      (net.SendToAllExcept w ex).clients i = some { s with outbox := s.outbox ++ [w] }) ∧
    (∀ i s, net.clients i = some s → s.Connected = false →
      (net.SendToAllExcept w ex).clients i = some s) ∧
    (∀ i, net.clients i = none → (net.SendToAllExcept w ex).clients i = none) := by
  refine ⟨?_, ?_, ?_, ?_, ?_, ?_, ?_⟩
  · intro i s hs hconn
    simp [Network.SendToAll, hs, Session.sendPacket, hconn]
  · intro i s hs hconn
    simp [Network.SendToAll, hs, Session.sendPacket, hconn]
  · intro i hi
    simp [Network.SendToAll, hi]
  · intro hex
    simp [Network.SendToAllExcept, hex]
  · intro hinv i s hne hs hconn
    have hsex : s ≠ ex := by
      intro he
      exact hne (by rw [← (hinv i s hs).1, he])
    simp [Network.SendToAllExcept, hs, hsex, Session.sendPacket, hconn]
  · intro i s hs hconn
    by_cases hse : s = ex
    · simp [Network.SendToAllExcept, hs, hse]
    · simp [Network.SendToAllExcept, hs, hse, Session.sendPacket, hconn]
  · intro i hi
    simp [Network.SendToAllExcept, hi]

/-- A disconnected session still present in the registry at identity 0. -/
def dSess : Session := { UserIdx := 0, Connected := false }

/-- Registry whose only session is the disconnected dSess. -/
def net5c : Network :=
  { clients := fun i => if i = 0 then some dSess else none, userIdx := 1 }

/-- A broadcast packet. -/
def wA : Writer := { opcode := 17 }

/-- Claim C5 counterexample: dSess is present in the registry when the
broadcast starts, yet after SendToAll its outbox is still empty — it did
not receive the packet exactly once. -/
theorem broadcast_misses_disconnected_present :
    net5c.clients 0 = some dSess ∧ (net5c.SendToAll wA).clients 0 = some dSess ∧
    dSess.outbox = [] := by
  refine ⟨rfl, ?_, rfl⟩
  simp [net5c, Network.SendToAll, dSess, Session.sendPacket]

/-- A connected session at identity 0. -/
def cSess0 : Session := { UserIdx := 0 }

/-- A connected session at identity 1. -/
def cSess1 : Session := { UserIdx := 1 }

/-- Two connected sessions at identities 0 and 1. -/
def clients5w : Nat → Option Session :=
  fun i => if i = 0 then some cSess0 else if i = 1 then some cSess1 else none

/-- Registry holding cSess0 and cSess1. -/
def net5w : Network := { clients := clients5w, userIdx := 2 }

theorem regInv_net5w : RegInv net5w := by
  intro i s h
  by_cases h0 : i = 0
  · rw [h0] at h ⊢
    have : s = cSess0 := by simpa [net5w, clients5w] using h.symm
    rw [this]
    exact ⟨rfl, by decide⟩
  · by_cases h1 : i = 1
    · rw [h1] at h ⊢
      have : s = cSess1 := by simpa [net5w, clients5w] using h.symm
      rw [this]
      exact ⟨rfl, by decide⟩
    · simp [net5w, clients5w, h0, h1] at h

/-- Witness for the amended broadcast claim on a concrete registry: the
connected session at 0 receives the packet exactly once, an empty slot
receives nothing, and a broadcast excluding the session at 0 skips it while
still delivering exactly once to the session at 1. -/
theorem broadcast_delivery_witness :
    (net5w.SendToAll wA).clients 0 = some { cSess0 with outbox := cSess0.outbox ++ [wA] } ∧
    (net5w.SendToAll wA).clients 7 = none ∧
    (net5w.SendToAllExcept wA cSess0).clients 0 = some cSess0 ∧
    (net5w.SendToAllExcept wA cSess0).clients 1 =
      some { cSess1 with outbox := cSess1.outbox ++ [wA] } :=
  ⟨(broadcast_delivery net5w wA cSess0).1 0 cSess0 rfl rfl,
    (broadcast_delivery net5w wA cSess0).2.2.1 7 rfl,
    (broadcast_delivery net5w wA cSess0).2.2.2.1 rfl,
    (broadcast_delivery net5w wA cSess0).2.2.2.2.1 regInv_net5w 1 cSess1 (by decide) rfl rfl⟩

/-- SendToUser on a connected session stored at the index: the packet is
delivered and the call reports true. -/
theorem sendToUser_eq_of_connected {net : Network} {i : Nat} {s : Session} {w : Writer}
    (hc : net.clients i = some s) (hconn : s.Connected = true) :
    net.SendToUser i w =
      ({ net with clients := mapInsert net.clients i (s.sendPacket w) }, true) := by
  unfold Network.SendToUser
  rw [hc]
  show (if s.Connected = true then _ else _) = _
  rw [if_pos hconn]

/-- SendToUser on a stored but disconnected session: nothing happens. -/
theorem sendToUser_eq_of_disconnected {net : Network} {i : Nat} {s : Session} {w : Writer}
    (hc : net.clients i = some s) (hconn : s.Connected = false) :
    net.SendToUser i w = (net, false) := by
  unfold Network.SendToUser
  rw [hc]
  show (if s.Connected = true then _ else _) = _
  rw [if_neg (by rw [hconn]; simp)]

/-- SendToUser on an empty slot: nothing happens. -/
theorem sendToUser_eq_of_absent {net : Network} {i : Nat} {w : Writer}
    (hc : net.clients i = none) :
    net.SendToUser i w = (net, false) := by
  unfold Network.SendToUser
  rw [hc]

/-- Claim C6: SendToUser reports true exactly when a connected session is
stored under the index; on false nothing at all changes; on true the packet
is appended once to that session's outbox, every other slot is untouched,
and in all cases the call is a total function (it never raises). -/
theorem sendToUser_spec (net : Network) (i : Nat) (w : Writer) :
    ((net.SendToUser i w).2 = true ↔ ∃ s, net.clients i = some s ∧ s.Connected = true) ∧
    ((net.SendToUser i w).2 = false → (net.SendToUser i w).1 = net) ∧
    (∀ s, net.clients i = some s → s.Connected = true →
      (net.SendToUser i w).1.clients i = some { s with outbox := s.outbox ++ [w] } ∧
      ∀ j, j ≠ i → (net.SendToUser i w).1.clients j = net.clients j) := by
  refine ⟨⟨?_, ?_⟩, ?_, ?_⟩
  · intro htrue
    cases hc : net.clients i with
    | some s =>
      by_cases hconn : s.Connected = true
      · exact ⟨s, rfl, hconn⟩
      · rw [sendToUser_eq_of_disconnected hc (by simpa using hconn)] at htrue
        simp at htrue
    | none =>
      rw [sendToUser_eq_of_absent hc] at htrue
      simp at htrue
  · intro h
    obtain ⟨s, hc, hconn⟩ := h
    rw [sendToUser_eq_of_connected hc hconn]
  · intro hfalse
    cases hc : net.clients i with
    | some s =>
      by_cases hconn : s.Connected = true
      · rw [sendToUser_eq_of_connected hc hconn] at hfalse
        simp at hfalse
      · rw [sendToUser_eq_of_disconnected hc (by simpa using hconn)]
    | none =>
      rw [sendToUser_eq_of_absent hc]
  · intro s hc hconn
    rw [sendToUser_eq_of_connected hc hconn]
    constructor
    · simp [mapInsert, Session.sendPacket, hconn]
    · intro j hj
      simp [mapInsert, hj]

/-- Witness for the SendToUser claim on concrete registries: a send to the
connected session at 0 reports true and delivers once, a send to an empty
slot reports false and changes nothing. -/
theorem sendToUser_spec_witness :
    (net5w.SendToUser 0 wA).2 = true ∧
    (net5w.SendToUser 0 wA).1.clients 0 = some { cSess0 with outbox := cSess0.outbox ++ [wA] } ∧
    (net5w.SendToUser 0 wA).1.clients 1 = net5w.clients 1 ∧
    (net5w.SendToUser 9 wA).2 = false ∧
    (net5w.SendToUser 9 wA).1 = net5w :=
  ⟨(sendToUser_spec net5w 0 wA).1.mpr ⟨cSess0, rfl, rfl⟩,
    ((sendToUser_spec net5w 0 wA).2.2 cSess0 rfl rfl).1,
    ((sendToUser_spec net5w 0 wA).2.2 cSess0 rfl rfl).2 1 (by decide),
    by rw [sendToUser_eq_of_absent (show net5w.clients 9 = none from rfl)],
    (sendToUser_spec net5w 9 wA).2.1 (by
      rw [sendToUser_eq_of_absent (show net5w.clients 9 = none from rfl)])⟩

/-! Disconnect handling and close-by-identity. -/

theorem scanUserIdx_some {clients : Nat → Option Session} {t idx fuel : Nat} {s : Session}
    (h : scanUserIdx clients t idx fuel = some s) :
    (∃ j, clients j = some s) ∧ s.UserIdx = t := by
  induction fuel generalizing idx with
  | zero => simp [scanUserIdx] at h
  | succ fuel ih =>
    rw [scanUserIdx] at h
    cases hc : clients idx with
    | some u =>
      rw [hc] at h
      have h' : (if (u.UserIdx == t) = true then some u
          else scanUserIdx clients t (idx + 1) fuel) = some s := h
      by_cases hb : (u.UserIdx == t) = true
      · rw [if_pos hb] at h'
        have hu : u = s := Option.some_inj.mp h'
        refine ⟨⟨idx, by rw [hc, hu]⟩, ?_⟩
        rw [← hu]
        simpa using hb
      · rw [if_neg hb] at h'
        exact ih h'
    | none =>
      rw [hc] at h
      exact ih h

theorem scanUserIdx_none {clients : Nat → Option Session} {t : Nat}
    (h : ∀ j s, clients j = some s → s.UserIdx ≠ t) :
    ∀ fuel idx, scanUserIdx clients t idx fuel = none := by
  intro fuel
  induction fuel with
  | zero => intro idx; rfl
  | succ fuel ih =>
    intro idx
    rw [scanUserIdx]
    cases hc : clients idx with
    | some u =>
      show (if (u.UserIdx == t) = true then some u
        else scanUserIdx clients t (idx + 1) fuel) = none
      rw [if_neg (by simpa using h idx u hc)]
      exact ih _
    | none => exact ih _

theorem closeUser_eq_of_found {net : Network} {i : Nat} {s : Session}
    (h : scanUserIdx net.clients i 0 USER_IDX_SPACE = some s) :
    net.CloseUser i = (net.sessionClose s, true) := by
  unfold Network.CloseUser
  rw [h]

theorem closeUser_eq_of_absent {net : Network} {i : Nat}
    (h : scanUserIdx net.clients i 0 USER_IDX_SPACE = none) :
    net.CloseUser i = (net, false) := by
  unfold Network.CloseUser
  rw [h]

/-- Claim C7: delivering a disconnect event for an identity whose slot is
already empty changes nothing; removal only ever touches the session's own
slot; removing twice is the same as removing once; CloseUser touches no
slot other than the requested identity; and, under the registry invariant,
a second CloseUser of the same identity finds nothing, reports false and
leaves the state exactly as after the first close. -/
theorem disconnect_idempotent (net : Network) (s : Session) (i : Nat) (hinv : RegInv net) :
    (net.clients s.UserIdx = none →
      ∀ j, (net.onClientDisconnect (some s)).clients j = net.clients j) ∧
    (∀ j, j ≠ s.UserIdx → (net.onClientDisconnect (some s)).clients j = net.clients j) ∧
    (∀ j, ((net.onClientDisconnect (some s)).onClientDisconnect (some s)).clients j =
      (net.onClientDisconnect (some s)).clients j) ∧
    (∀ j, j ≠ i → (net.CloseUser i).1.clients j = net.clients j) ∧
    ((net.CloseUser i).1.CloseUser i = ((net.CloseUser i).1, false)) := by
  refine ⟨?_, ?_, ?_, ?_, ?_⟩
  · intro habs j
    simp only [Network.onClientDisconnect, mapDelete]
    by_cases hj : j = s.UserIdx
    · rw [if_pos hj, hj, habs]
    · rw [if_neg hj]
  · intro j hj
    simp only [Network.onClientDisconnect, mapDelete]
    rw [if_neg hj]
  · intro j
    simp only [Network.onClientDisconnect, mapDelete]
    by_cases hj : j = s.UserIdx
    · rw [if_pos hj, if_pos hj]
    · rw [if_neg hj, if_neg hj]
  · intro j hj
    cases hscan : scanUserIdx net.clients i 0 USER_IDX_SPACE with
    | some u =>
      rw [closeUser_eq_of_found hscan]
      have hu : u.UserIdx = i := (scanUserIdx_some hscan).2
      simp only [Network.sessionClose, Network.onClientDisconnect, mapDelete]
      rw [if_neg (show j ≠ ({ u with Connected := false } : Session).UserIdx from by
        show j ≠ u.UserIdx
        rw [hu]
        exact hj)]
    | none => rw [closeUser_eq_of_absent hscan]
  · cases hscan : scanUserIdx net.clients i 0 USER_IDX_SPACE with
    | some u =>
      rw [closeUser_eq_of_found hscan]
      apply closeUser_eq_of_absent
      apply scanUserIdx_none
      intro j v hv
      simp only [Network.sessionClose, Network.onClientDisconnect, mapDelete] at hv
      by_cases hj : j = ({ u with Connected := false } : Session).UserIdx
      · rw [if_pos hj] at hv
        exact absurd hv (by simp)
      · rw [if_neg hj] at hv
        have hvj := (hinv j v hv).1
        rw [hvj]
        intro hji
        apply hj
        show j = u.UserIdx
        rw [(scanUserIdx_some hscan).2, ← hji]
    | none =>
      rw [closeUser_eq_of_absent hscan]
      exact closeUser_eq_of_absent hscan

/-- A session bearing identity 9, which is absent from net5w. -/
def ghost9 : Session := { UserIdx := 9 }

/-- Witness for the disconnect claim on a concrete registry: removing the
absent identity 9 leaves slot 0 unchanged, removal of session cSess1 leaves
slot 0 unchanged, a double removal agrees with a single one, CloseUser 0
leaves slot 1 unchanged, and a double CloseUser 0 reports false on the
second call without further changes. -/
theorem disconnect_idempotent_witness :
    ((net5w.onClientDisconnect (some ghost9)).clients 0 = net5w.clients 0) ∧
    ((net5w.onClientDisconnect (some cSess1)).clients 0 = net5w.clients 0) ∧
    (((net5w.onClientDisconnect (some cSess1)).onClientDisconnect (some cSess1)).clients 1 =
      (net5w.onClientDisconnect (some cSess1)).clients 1) ∧
    ((net5w.CloseUser 0).1.clients 1 = net5w.clients 1) ∧
    ((net5w.CloseUser 0).1.CloseUser 0 = ((net5w.CloseUser 0).1, false)) :=
  ⟨(disconnect_idempotent net5w ghost9 0 regInv_net5w).1 rfl 0,
    (disconnect_idempotent net5w cSess1 0 regInv_net5w).2.1 0 (by decide),
    (disconnect_idempotent net5w cSess1 0 regInv_net5w).2.2.1 1,
    (disconnect_idempotent net5w cSess1 0 regInv_net5w).2.2.2.1 1 (by decide),
    (disconnect_idempotent net5w cSess1 0 regInv_net5w).2.2.2.2⟩

/-! Lock discipline of the send paths. -/

theorem writeWhileRLocked_broadcast {clients : Nat → Option Session} :
    ∀ fuel idx d,
      (∃ k, k < fuel ∧ ∃ s, clients (idx + k) = some s ∧ s.Connected = true) →
      writeWhileRLocked (d + 1)
        (broadcastWrites clients idx fuel ++ [LockEv.runlock]) = true := by
  intro fuel
  induction fuel with
  | zero =>
    intro idx d h
    obtain ⟨k, hk, -⟩ := h
    omega
  | succ fuel ih =>
    intro idx d h
    obtain ⟨k, hk, s, hs, hconn⟩ := h
    rw [broadcastWrites]
    cases hc : clients idx with
    | some t =>
      show writeWhileRLocked (d + 1)
        ((if t.Connected = true then
            LockEv.sockWrite idx :: broadcastWrites clients (idx + 1) fuel
          else broadcastWrites clients (idx + 1) fuel) ++ [LockEv.runlock]) = true
      by_cases hct : t.Connected = true
      · rw [if_pos hct, List.cons_append, writeWhileRLocked]
        simp
      · rw [if_neg hct]
        apply ih
        cases k with
        | zero =>
          rw [Nat.add_zero] at hs
          rw [hc] at hs
          rw [← Option.some_inj.mp hs] at hconn
          exact absurd hconn hct
        | succ k' =>
          refine ⟨k', by omega, s, ?_, hconn⟩
          rw [show idx + 1 + k' = idx + (k' + 1) from by omega]
          exact hs
    | none =>
      show writeWhileRLocked (d + 1)
        (broadcastWrites clients (idx + 1) fuel ++ [LockEv.runlock]) = true
      apply ih
      cases k with
      | zero =>
        rw [Nat.add_zero] at hs
        rw [hc] at hs
        exact absurd hs (by simp)
      | succ k' =>
        refine ⟨k', by omega, s, ?_, hconn⟩
        rw [show idx + 1 + k' = idx + (k' + 1) from by omega]
        exact hs

/-- Claim C8, evaluated against the code: whenever some connected session
is reachable by a send, the socket write happens while the registry read
lock is still held — SendToUser releases the lock only after Session.Send
returns, and SendToAll keeps it across every per-session write of the
broadcast loop.  This is the opposite of the claimed discipline. -/
theorem send_holds_rlock_across_write (net : Network) (i : Nat) (s : Session)
    (hs : net.clients i = some s) (hconn : s.Connected = true)
    (hi : i < USER_IDX_SPACE) :
    writeWhileRLocked 0 (sendToUserTrace net i) = true ∧
    writeWhileRLocked 0 (sendToAllTrace net) = true := by
  constructor
  · unfold sendToUserTrace
    rw [hs]
    show writeWhileRLocked 0
      (if s.Connected = true then [LockEv.rlock, LockEv.sockWrite i, LockEv.runlock]
        else [LockEv.rlock, LockEv.runlock]) = true
    rw [if_pos hconn]
    rfl
  · unfold sendToAllTrace
    rw [writeWhileRLocked]
    exact writeWhileRLocked_broadcast USER_IDX_SPACE 0 0
      ⟨i, hi, s, by simpa using hs, hconn⟩

/-- Witness: on the concrete registry with connected sessions the traces of
both send paths contain a socket write under the read lock. -/
theorem send_holds_rlock_across_write_witness :
    writeWhileRLocked 0 (sendToUserTrace net5w 0) = true ∧
    writeWhileRLocked 0 (sendToAllTrace net5w) = true :=
  send_holds_rlock_across_write net5w 0 cSess0 rfl rfl (by decide)

/-! The game server's Initialized handler on unverified sessions. -/

/-- Claim C9: a packet reaching the Initialized handler on a session whose
Verified flag or LoggedIn flag is still unset is rejected outright — the
handler logs and returns, so the session comes back completely unchanged
(no reply packet in its outbox, role-specific payload untouched) and the
closed flag stays false; the handler is a total function, so no crash. -/
theorem unverified_initialized_rejected (session : Session) (charId : Int)
    (fetched : List Character)
    (h : session.Data.Verified = false ∨ session.Data.LoggedIn = false) :
    Initialized session charId fetched = (session, false) := by
  unfold Initialized
  rcases h with h | h
  · rw [h]
    simp
  · rw [h]
    simp

/-- Witness: the handler rejects a default (unverified) session without
touching it. -/
theorem unverified_initialized_rejected_witness :
    Initialized seedA 5 [] = (seedA, false) :=
  unverified_initialized_rejected seedA 5 [] (Or.inl rfl)

/-! VerifyUser. -/

theorem verifyUser_eq_of_match {net : Network} {i k : Nat} {ip : String}
    {dbIdx : Int} {s : Session}
    (hc : net.clients i = some s) (hk : s.AuthKey = k) (hip : s.ip = ip) :
    (net.VerifyUser i k ip dbIdx).2 = true ∧
    ∀ j, (net.VerifyUser i k ip dbIdx).1.clients j =
      mapInsert net.clients i { s with Data :=
        { s.Data with Verified := true, LoggedIn := true, AccountId := dbIdx } } j := by
  have hcond : (s.AuthKey == k && s.ip == ip) = true := by simp [hk, hip]
  constructor
  · unfold Network.VerifyUser
    rw [hc]
    show (if (s.AuthKey == k && s.ip == ip) = true then _ else (net, false)).2 = true
    rw [if_pos hcond]
  · intro j
    unfold Network.VerifyUser
    rw [hc]
    show (if (s.AuthKey == k && s.ip == ip) = true then _ else (net, false)).1.clients j = _
    rw [if_pos hcond]

theorem verifyUser_eq_of_nomatch {net : Network} {i k : Nat} {ip : String}
    {dbIdx : Int} {s : Session}
    (hc : net.clients i = some s) (hcond : (s.AuthKey == k && s.ip == ip) = false) :
    net.VerifyUser i k ip dbIdx = (net, false) := by
  unfold Network.VerifyUser
  rw [hc]
  show (if (s.AuthKey == k && s.ip == ip) = true then _ else (net, false)) = (net, false)
  rw [if_neg (by rw [hcond]; simp)]

theorem verifyUser_eq_of_absent {net : Network} {i k : Nat} {ip : String} {dbIdx : Int}
    (hc : net.clients i = none) :
    net.VerifyUser i k ip dbIdx = (net, false) := by
  unfold Network.VerifyUser
  rw [hc]

/-- Claim C10: VerifyUser reports true exactly when the session stored
under the index has the expected handshake key and remote address; on
success it sets that session's Verified and LoggedIn flags and its account
id while touching no other slot; on failure it reports false and leaves
every slot exactly as it was. -/
theorem verifyUser_spec (net : Network) (i k : Nat) (ip : String) (dbIdx : Int) :
    ((net.VerifyUser i k ip dbIdx).2 = true ↔
      ∃ s, net.clients i = some s ∧ s.AuthKey = k ∧ s.ip = ip) ∧
    ((net.VerifyUser i k ip dbIdx).2 = false →
      ∀ j, (net.VerifyUser i k ip dbIdx).1.clients j = net.clients j) ∧
    (∀ s, net.clients i = some s → s.AuthKey = k → s.ip = ip →
      (net.VerifyUser i k ip dbIdx).1.clients i =
        some { s with Data :=
          { s.Data with Verified := true, LoggedIn := true, AccountId := dbIdx } } ∧
      ∀ j, j ≠ i → (net.VerifyUser i k ip dbIdx).1.clients j = net.clients j) := by
  refine ⟨⟨?_, ?_⟩, ?_, ?_⟩
  · intro htrue
    cases hc : net.clients i with
    | some s =>
      by_cases hcond : (s.AuthKey == k && s.ip == ip) = true
      · have hks := hcond
        simp only [Bool.and_eq_true, beq_iff_eq] at hks
        exact ⟨s, rfl, hks.1, hks.2⟩
      · rw [verifyUser_eq_of_nomatch hc (by simpa using hcond)] at htrue
        simp at htrue
    | none =>
      rw [verifyUser_eq_of_absent hc] at htrue
      simp at htrue
  · intro h
    obtain ⟨s, hc, hk, hip⟩ := h
    exact (verifyUser_eq_of_match hc hk hip).1
  · intro hfalse j
    cases hc : net.clients i with
    | some s =>
      by_cases hcond : (s.AuthKey == k && s.ip == ip) = true
      · have hks := hcond
        simp only [Bool.and_eq_true, beq_iff_eq] at hks
        rw [(verifyUser_eq_of_match hc hks.1 hks.2).1] at hfalse
        simp at hfalse
      · rw [verifyUser_eq_of_nomatch hc (by simpa using hcond)]
    | none =>
      rw [verifyUser_eq_of_absent hc]
  · intro s hc hk hip
    constructor
    · rw [(verifyUser_eq_of_match hc hk hip).2 i]
      simp [mapInsert]
    · intro j hj
      rw [(verifyUser_eq_of_match hc hk hip).2 j]
      simp [mapInsert, hj]

/-- An unverified session at identity 2 with handshake key 77 and remote
address 10.0.0.1. -/
def rawSess : Session := { UserIdx := 2, AuthKey := 77, ip := "10.0.0.1" }

/-- Registry whose only session is rawSess, stored under its identity. -/
def net10w : Network :=
  { clients := fun i => if i = 2 then some rawSess else none, userIdx := 3 }

/-- Witness for the VerifyUser claim on a concrete registry: the session at
identity 2 with matching key and address is verified in place (true) with
other slots untouched, while a mismatching key is refused with the registry
untouched. -/
theorem verifyUser_spec_witness :
    (net10w.VerifyUser 2 77 "10.0.0.1" 41).2 = true ∧
    (net10w.VerifyUser 2 77 "10.0.0.1" 41).1.clients 2 =
      some { rawSess with Data :=
        { rawSess.Data with Verified := true, LoggedIn := true, AccountId := 41 } } ∧
    (net10w.VerifyUser 2 77 "10.0.0.1" 41).1.clients 0 = net10w.clients 0 ∧
    (net10w.VerifyUser 2 66 "10.0.0.1" 41).1.clients 2 = net10w.clients 2 :=
  ⟨(verifyUser_spec net10w 2 77 "10.0.0.1" 41).1.mpr ⟨rawSess, rfl, rfl, rfl⟩,
    ((verifyUser_spec net10w 2 77 "10.0.0.1" 41).2.2 rawSess rfl rfl rfl).1,
    ((verifyUser_spec net10w 2 77 "10.0.0.1" 41).2.2 rawSess rfl rfl rfl).2 0 (by decide),
    (verifyUser_spec net10w 2 66 "10.0.0.1" 41).2.1
      (by rw [verifyUser_eq_of_nomatch (show net10w.clients 2 = some rawSess from rfl)
        (by decide)]) 2⟩

end Freya
